import Mathlib

/-!
Verification of the songbooks catalog build pipeline.

The definitions below are a shallow embedding of the aggregation and
extraction functions of the repository (build.py, main.py).  Numeric API
field values are modelled over the rationals; a string field that the
numeric conversion accepts is abstracted as the rational it denotes, and a
string it rejects as a distinguished bad value.  The paginated API server
is modelled as a function from page numbers to responses.
-/

namespace Songbooks

/-- A value carried by one field of an API record, as seen by the numeric
conversion in get_buymeacoffee_stats: a JSON number, a string that parses
as a number (abstracted to the rational it denotes), a string the
conversion rejects, or JSON null (which the conversion also rejects). -/
inductive FieldVal where
  | num (q : ℚ)
  | strNum (q : ℚ)
  | strBad
  | null
deriving DecidableEq

/-- The numeric conversion applied to a field value: succeeds on numbers
and numeric strings, fails (raising in the source, hence an excluded
record) on non-numeric strings and null. -/
def toNum : FieldVal → Option ℚ
  | .num q => some q
  | .strNum q => some q
  | .strBad => none
  | .null => none

/-- One supporter record of the paginated stats API; a field is none when
the key is absent from the record. -/
structure Supporter where
  support_coffees : Option FieldVal
  support_coffee_price : Option FieldVal
deriving DecidableEq

/-- The contribution of one supporter record to the monetary total:
coffees = float(supporter.get(support_coffees, 0)) and
price = float(supporter.get(support_coffee_price, 3)); none when either
conversion fails, in which case the record is skipped. -/
def supporterAmount (s : Supporter) : Option ℚ :=
  match toNum (s.support_coffees.getD (.num 0)),
        toNum (s.support_coffee_price.getD (.num 3)) with
  | some c, some p => some (c * p)
  | _, _ => none

/-- The accumulation loop over all fetched supporters: total_amount starts
at 0 and each record whose conversions succeed adds coffees times price. -/
def totalAmount (l : List Supporter) : ℚ :=
  l.foldl (fun total s =>
    match supporterAmount s with
    | some a => total + a
    | none => total) 0

/-- Python int() applied to a float: truncation toward zero. -/
def pyInt (q : ℚ) : ℤ := if 0 ≤ q then ⌊q⌋ else ⌈q⌉

/-- The record returned by get_buymeacoffee_stats. -/
structure SupporterStats where
  total_amount : ℤ
  supporter_count : ℕ
  currency : String
deriving DecidableEq

/-- The fixed fallback literal used when the API is unavailable. -/
def fallback_stats : SupporterStats :=
  { total_amount := 912, supporter_count := 61, currency := "€" }

/-- Python truthiness of the credential: os.environ.get gives none when
the variable is unset, and the empty string is also falsy. -/
def token_truthy : Option String → Bool
  | none => false
  | some s => !(s == "")

/-- The response the modelled server gives for one page: a parsed page
with a record list and the presence bit of next_page_url, a non-success
HTTP status, or a raised transport error or other exception. -/
inductive FetchResult (α : Type) where
  | ok (data : List α) (hasNext : Bool)
  | httpError (status : Nat)
  | exn
deriving DecidableEq

/-- A page after which the loop keeps going: parsed, non-empty record
list, and next_page_url not null. -/
def continuesPage {α : Type} : FetchResult α → Bool
  | .ok data hasNext => !data.isEmpty && hasNext
  | .httpError _ => false
  | .exn => false

/-- A response that makes the function abandon aggregation: a non-success
status or a raised exception. -/
def isFailure {α : Type} : FetchResult α → Bool
  | .ok _ _ => false
  | .httpError _ => true
  | .exn => true

/-- The record list a page carries (empty for failed responses; used only
to describe pages the loop actually parsed). -/
def pageData {α : Type} (server : Nat → FetchResult α) (q : Nat) : List α :=
  match server q with
  | .ok d _ => d
  | .httpError _ => []
  | .exn => []

/-- page_size = 50 in the source. -/
def page_size : Nat := 50

/-- The pagination while-loop shared by the two aggregators, one request
per iteration.  Returns none if a request failed (fallback path), else the
concatenation of the record lists in fetch order, together with the list
of (page, per_page) request parameters issued.  The fuel argument encodes
the safety cap: at fuel = 0 the loop breaks after the current page, which
with fuel 99 at page 1 reproduces the break once page exceeds 100. -/
def pagesLoop {α : Type} (server : Nat → FetchResult α) :
    Nat → Nat → Option (List α) × List (Nat × Nat)
  | fuel, page =>
    match server page with
    | .exn => (none, [(page, page_size)])
    | .httpError _ => (none, [(page, page_size)])
    | .ok data hasNext =>
      if data.isEmpty then (some [], [(page, page_size)])
      else if hasNext then
        match fuel with
        | 0 => (some data, [(page, page_size)])
        | fuel' + 1 =>
          let rest := pagesLoop server fuel' (page + 1)
          (rest.1.map (fun l => data ++ l), (page, page_size) :: rest.2)
      else (some data, [(page, page_size)])

/-- get_buymeacoffee_stats from build.py: fallback on a falsy credential
and on any failed request, otherwise totals computed over all fetched
supporters. -/
def get_buymeacoffee_stats (api_token : Option String)
    (server : Nat → FetchResult Supporter) : SupporterStats :=
  if token_truthy api_token = false then fallback_stats
  else
    match (pagesLoop server 99 1).1 with
    | none => fallback_stats
    | some all_supporters =>
      { total_amount := pyInt (totalAmount all_supporters)
        supporter_count := all_supporters.length
        currency := "€" }

/-- The request parameters get_buymeacoffee_stats sends: none without a
truthy credential, else those of the pagination loop. -/
def statsRequests (api_token : Option String)
    (server : Nat → FetchResult Supporter) : List (Nat × Nat) :=
  if token_truthy api_token = false then [] else (pagesLoop server 99 1).2

/-- One record of the subscriptions API; payer_name is none when the key
is absent. -/
structure Subscription where
  payer_name : Option String
deriving DecidableEq

/-- Modelled from the spec: get_buymeacoffee_subscriptions is imported by
test_build.py but its definition is not under src/.  Per sections 4.4 and
7 of the spec it uses the same pagination protocol, termination and cap
rules as get_buymeacoffee_stats, keeps the display name of each record
unless the field is missing, empty, or only whitespace after trimming,
and returns an empty sequence on a missing credential or any failure. -/
def get_buymeacoffee_subscriptions (api_token : Option String)
    (server : Nat → FetchResult Subscription) : List String :=
  if token_truthy api_token = false then []
  else
    match (pagesLoop server 99 1).1 with
    | none => []
    | some records =>
      records.filterMap (fun r =>
        match r.payer_name with
        | some n => if n.data.all Char.isWhitespace then none else some n
        | none => none)

/-- The embedded metadata of a parsed PDF as the metadata dictionary
exposes it; a field is none when the key is absent. -/
structure PdfMetadata where
  title : Option String
  subject : Option String
deriving DecidableEq

/-- The metadata record process_pdf_url returns. -/
structure DocMetadata where
  title : String
  subject : String
deriving DecidableEq

/-- The metadata-extraction step of process_pdf_url (build.py and
main.py): title = metadata.get(title) or edition_name, so a missing or
empty embedded title falls back to the edition name; subject =
metadata.get(subject, empty string).  The preview rasterization done by
the same source function is I/O through the external PDF library and is
not part of the claims. -/
def process_pdf_url (edition_name : String) (metadata : PdfMetadata) :
    DocMetadata :=
  { title :=
      match metadata.title with
      | some t => if t = "" then edition_name else t
      | none => edition_name
    subject := metadata.subject.getD "" }

/-- The characters of a name lowercased, the basis of every
case-insensitive comparison of the listing resolver. -/
def lowerChars (s : String) : List Char := s.data.map Char.toLower

/-- Lexicographic order on character lists by code point, as Python
compares strings. -/
def charsLe : List Char → List Char → Bool
  | [], _ => true
  | _ :: _, [] => false
  | a :: as, b :: bs => if a = b then charsLe as bs else decide (a < b)

/-- Keeps the names ending in .pdf, case-insensitively. -/
def hasPdfSuffix (s : String) : Bool :=
  decide ((lowerChars s).reverse.take 4 = ['f', 'd', 'p', '.'])

/-- Sort key tier: regular.pdf (case-insensitive) sorts before every
other name. -/
def listingKey (s : String) : Nat :=
  if lowerChars s = "regular.pdf".data then 0 else 1

/-- The listing sort order: lower tier first, ties broken by
case-insensitive lexicographic name. -/
def listingLE (a b : String) : Prop :=
  listingKey a < listingKey b ∨
    (listingKey a = listingKey b ∧ charsLe (lowerChars a) (lowerChars b) = true)

instance listingLE.decidableRel : DecidableRel listingLE := fun _ _ =>
  instDecidableOr

/-- Modelled from the spec: the listing-based ManifestResolver strategy of
section 4.1 is not under src/ (the sources hold only the manifest-based
variant).  Per the spec it keeps only the object names ending in .pdf
case-insensitively and sorts them with names equal to regular.pdf
(case-insensitive) first and all others by case-insensitive lexicographic
name; a stable insertion sort realizes the sort. -/
def resolve_from_listing (names : List String) : List String :=
  List.insertionSort listingLE (names.filter hasPdfSuffix)

/-! Helper lemmas about the pagination loop. -/

theorem isFailure_continuesPage {α : Type} (r : FetchResult α)
    (h : isFailure r = true) : continuesPage r = false := by
  cases r <;> simp_all [isFailure, continuesPage]

theorem pageData_ne_nil_of_continuesPage {α : Type}
    (server : Nat → FetchResult α) (q : Nat)
    (h : continuesPage (server q) = true) : pageData server q ≠ [] := by
  unfold pageData
  cases hq : server q <;> simp [hq, continuesPage] at h ⊢
  exact h.1

/-- If all pages from page to page + fuel keep the loop going, the loop
consumes all its fuel: it requests exactly the pages page .. page + fuel
and gathers the records of every one of them. -/
theorem pagesLoop_cap {α : Type} (server : Nat → FetchResult α) (fuel : Nat) :
    ∀ page : Nat,
      (∀ q, page ≤ q → q ≤ page + fuel → continuesPage (server q) = true) →
      pagesLoop server fuel page =
        (some (((List.range' page (fuel + 1)).map (pageData server)).flatten),
         (List.range' page (fuel + 1)).map (fun q => (q, page_size))) := by
  induction fuel with
  | zero =>
    intro page hcont
    have hpage := hcont page le_rfl (by omega)
    unfold pagesLoop
    cases hq : server page with
    | ok data hasNext =>
      rw [hq] at hpage
      simp only [continuesPage, Bool.and_eq_true, Bool.not_eq_true'] at hpage
      simp [hpage.1, hpage.2, List.range', pageData, hq]
    | httpError st => rw [hq] at hpage; simp [continuesPage] at hpage
    | exn => rw [hq] at hpage; simp [continuesPage] at hpage
  | succ fuel ih =>
    intro page hcont
    have hpage := hcont page le_rfl (by omega)
    unfold pagesLoop
    cases hq : server page with
    | ok data hasNext =>
      rw [hq] at hpage
      simp only [continuesPage, Bool.and_eq_true, Bool.not_eq_true'] at hpage
      have hrest := ih (page + 1) (fun q h1 h2 => hcont q (by omega) (by omega))
      simp only [hpage.1, hpage.2, if_false, if_true, hrest]
      have hr : List.range' page (fuel + 1 + 1) = page :: List.range' (page + 1) (fuel + 1) :=
        List.range'_succ page (fuel + 1) 1
      simp [hr, pageData, hq]
    | httpError st => rw [hq] at hpage; simp [continuesPage] at hpage
    | exn => rw [hq] at hpage; simp [continuesPage] at hpage

/-- If the pages before p keep the loop going and page p stops it (failed
request, empty record list, or null continuation) while p is within the
fuel budget, the loop requests exactly the pages page .. p; the result is
the fallback marker on a failed request and otherwise the records of all
parsed pages. -/
theorem pagesLoop_stop {α : Type} (server : Nat → FetchResult α) (fuel : Nat) :
    ∀ page p : Nat, page ≤ p → p ≤ page + fuel →
      (∀ q, page ≤ q → q < p → continuesPage (server q) = true) →
      continuesPage (server p) = false →
      pagesLoop server fuel page =
        ((if isFailure (server p) = true then none
          else some (((List.range' page (p + 1 - page)).map (pageData server)).flatten)),
         (List.range' page (p + 1 - page)).map (fun q => (q, page_size))) := by
  induction fuel with
  | zero =>
    intro page p hle hub hcont hstop
    have hpp : p = page := by omega
    subst hpp
    unfold pagesLoop
    cases hq : server p with
    | ok data hasNext =>
      rw [hq] at hstop
      simp only [continuesPage] at hstop
      have hn : p + 1 - p = 1 := by omega
      rcases Bool.and_eq_false_iff.mp hstop with hempty | hnext
      · have hempty2 : data.isEmpty = true := by
          revert hempty; cases data.isEmpty <;> simp
        have hdata : data = [] := List.isEmpty_iff.mp hempty2
        simp [hq, hempty2, hn, List.range', pageData, isFailure, hdata]
      · cases hd : data.isEmpty
        · simp [hq, hd, hnext, hn, List.range', pageData, isFailure]
        · have hdata : data = [] := List.isEmpty_iff.mp hd
          simp [hq, hd, hn, List.range', pageData, isFailure, hdata]
    | httpError st =>
      have hn : p + 1 - p = 1 := by omega
      simp [hq, hn, List.range', isFailure]
    | exn =>
      have hn : p + 1 - p = 1 := by omega
      simp [hq, hn, List.range', isFailure]
  | succ fuel ih =>
    intro page p hle hub hcont hstop
    rcases Nat.eq_or_lt_of_le hle with hpp | hlt
    · subst hpp
      unfold pagesLoop
      cases hq : server page with
      | ok data hasNext =>
        rw [hq] at hstop
        simp only [continuesPage] at hstop
        have hn : page + 1 - page = 1 := by omega
        rcases Bool.and_eq_false_iff.mp hstop with hempty | hnext
        · have hempty2 : data.isEmpty = true := by
            revert hempty; cases data.isEmpty <;> simp
          have hdata : data = [] := List.isEmpty_iff.mp hempty2
          simp [hq, hempty2, hn, List.range', pageData, isFailure, hdata]
        · cases hd : data.isEmpty
          · simp [hq, hd, hnext, hn, List.range', pageData, isFailure]
          · have hdata : data = [] := List.isEmpty_iff.mp hd
            simp [hq, hd, hn, List.range', pageData, isFailure, hdata]
      | httpError st =>
        have hn : page + 1 - page = 1 := by omega
        simp [hq, hn, List.range', isFailure]
      | exn =>
        have hn : page + 1 - page = 1 := by omega
        simp [hq, hn, List.range', isFailure]
    · have hpage := hcont page le_rfl hlt
      unfold pagesLoop
      cases hq : server page with
      | ok data hasNext =>
        rw [hq] at hpage
        simp only [continuesPage, Bool.and_eq_true, Bool.not_eq_true'] at hpage
        have hrest := ih (page + 1) p (by omega) (by omega)
          (fun q h1 h2 => hcont q (by omega) h2) hstop
        simp only [hpage.1, hpage.2, if_false, if_true, hrest]
        have hn1 : p + 1 - page = (p + 1 - (page + 1)) + 1 := by omega
        rw [hn1, List.range'_succ page (p + 1 - (page + 1)) 1]
        cases hfail : isFailure (server p) with
        | true => simp
        | false => simp [pageData, hq]
      | httpError st => rw [hq] at hpage; simp [continuesPage] at hpage
      | exn => rw [hq] at hpage; simp [continuesPage] at hpage

/-- The loop never issues more requests than its fuel plus one allows. -/
theorem pagesLoop_length_le {α : Type} (server : Nat → FetchResult α)
    (fuel : Nat) : ∀ page : Nat,
      (pagesLoop server fuel page).2.length ≤ fuel + 1 := by
  induction fuel with
  | zero =>
    intro page
    unfold pagesLoop
    cases hq : server page with
    | ok data hasNext =>
      cases hd : data.isEmpty with
      | true => simp [hd]
      | false => cases hasNext <;> simp [hd]
    | httpError st => simp
    | exn => simp
  | succ fuel ih =>
    intro page
    unfold pagesLoop
    cases hq : server page with
    | ok data hasNext =>
      cases hd : data.isEmpty with
      | true => simp [hd]
      | false =>
        cases hasNext with
        | true =>
          have hlen := ih (page + 1)
          simp only [hd, Bool.false_eq_true, if_false, if_true, List.length_cons]
          omega
        | false => simp [hd]
    | httpError st => simp
    | exn => simp

/-- The requests of the loop always target consecutive pages starting at
its initial page, each with the fixed per_page parameter. -/
theorem pagesLoop_requests_range {α : Type} (server : Nat → FetchResult α)
    (fuel : Nat) : ∀ page : Nat,
      (pagesLoop server fuel page).2 =
        (List.range' page (pagesLoop server fuel page).2.length).map
          (fun q => (q, page_size)) := by
  induction fuel with
  | zero =>
    intro page
    unfold pagesLoop
    cases hq : server page with
    | ok data hasNext =>
      cases hd : data.isEmpty with
      | true => simp [hd, List.range']
      | false => cases hasNext <;> simp [hd, List.range']
    | httpError st => simp [List.range']
    | exn => simp [List.range']
  | succ fuel ih =>
    intro page
    unfold pagesLoop
    cases hq : server page with
    | ok data hasNext =>
      cases hd : data.isEmpty with
      | true => simp [hd, List.range']
      | false =>
        cases hasNext with
        | true =>
          have hreq := ih (page + 1)
          simp only [hd, Bool.false_eq_true, if_false, if_true, List.length_cons]
          rw [List.range'_succ]
          simp only [List.map_cons]
          exact congrArg _ hreq
        | false => simp [hd, List.range']
    | httpError st => simp [List.range']
    | exn => simp [List.range']

/-- Every record the loop returns comes from the data list of one of the
pages of the server. -/
theorem pagesLoop_mem {α : Type} (server : Nat → FetchResult α)
    (fuel : Nat) : ∀ page : Nat, ∀ all : List α,
      (pagesLoop server fuel page).1 = some all →
      ∀ x ∈ all, ∃ q, x ∈ pageData server q := by
  induction fuel with
  | zero =>
    intro page all hall x hx
    unfold pagesLoop at hall
    cases hq : server page with
    | ok data hasNext =>
      rw [hq] at hall
      refine ⟨page, ?_⟩
      cases hd : data.isEmpty with
      | true => simp [hd] at hall; subst hall; simp at hx
      | false =>
        cases hasNext <;> simp [hd] at hall <;> subst hall <;>
          simp [pageData, hq, hx]
    | httpError st => rw [hq] at hall; simp at hall
    | exn => rw [hq] at hall; simp at hall
  | succ fuel ih =>
    intro page all hall x hx
    unfold pagesLoop at hall
    cases hq : server page with
    | ok data hasNext =>
      rw [hq] at hall
      cases hd : data.isEmpty with
      | true => simp [hd] at hall; subst hall; simp at hx
      | false =>
        cases hasNext with
        | true =>
          simp only [hd, if_false, if_true, Bool.false_eq_true] at hall
          cases hrest : (pagesLoop server fuel (page + 1)).1 with
          | none => rw [hrest] at hall; simp at hall
          | some l =>
            rw [hrest] at hall
            simp at hall
            subst hall
            rcases List.mem_append.mp hx with hx1 | hx2
            · exact ⟨page, by simp [pageData, hq, hx1]⟩
            · exact ih (page + 1) l hrest x hx2
        | false =>
          simp [hd] at hall; subst hall
          exact ⟨page, by simp [pageData, hq, hx]⟩
    | httpError st => rw [hq] at hall; simp at hall
    | exn => rw [hq] at hall; simp at hall

/-- The accumulation loop computes the sum of the amounts of the records
whose numeric conversions succeed. -/
theorem totalAmount_eq_sum (l : List Supporter) :
    totalAmount l = (l.filterMap supporterAmount).sum := by
  have key : ∀ (l : List Supporter) (init : ℚ),
      l.foldl (fun total s =>
        match supporterAmount s with
        | some a => total + a
        | none => total) init = init + (l.filterMap supporterAmount).sum := by
    intro l
    induction l with
    | nil => intro init; simp
    | cons s tl ih =>
      intro init
      cases hs : supporterAmount s with
      | none => simp [List.foldl_cons, hs, ih, List.filterMap_cons, hs]
      | some a =>
        simp only [List.foldl_cons, hs, ih, List.filterMap_cons, List.sum_cons]
        ring
  simpa using key l 0


/-! Order properties of the listing sort relation. -/

theorem charsLe_total : ∀ as bs : List Char,
    charsLe as bs = true ∨ charsLe bs as = true := by
  intro as
  induction as with
  | nil => intro bs; left; rfl
  | cons a as ih =>
    intro bs
    cases bs with
    | nil => right; rfl
    | cons b bs =>
      by_cases hab : a = b
      · subst hab
        rcases ih bs with h | h
        · left; simp [charsLe, h]
        · right; simp [charsLe, h]
      · rcases lt_trichotomy a b with hlt | heq | hgt
        · left; simp [charsLe, hab, hlt]
        · exact absurd heq hab
        · right
          have hba : ¬ b = a := fun h => hab h.symm
          simp [charsLe, hba, hgt]

theorem charsLe_trans : ∀ as bs cs : List Char,
    charsLe as bs = true → charsLe bs cs = true → charsLe as cs = true := by
  intro as
  induction as with
  | nil => intro bs cs _ _; rfl
  | cons a as ih =>
    intro bs cs h1 h2
    cases bs with
    | nil => simp [charsLe] at h1
    | cons b bs =>
      cases cs with
      | nil => simp [charsLe] at h2
      | cons c cs =>
        by_cases hab : a = b <;> by_cases hbc : b = c
        · subst hab; subst hbc
          simp only [charsLe, if_pos rfl] at h1 h2 ⊢
          exact ih bs cs h1 h2
        · subst hab
          simp only [charsLe, if_pos rfl, if_neg hbc] at h2
          simp only [charsLe, if_neg hbc]
          exact h2
        · subst hbc
          simp only [charsLe, if_neg hab] at h1
          simp only [charsLe, if_neg hab]
          exact h1
        · simp only [charsLe, if_neg hab] at h1
          simp only [charsLe, if_neg hbc] at h2
          have hac : a < c := lt_trans (of_decide_eq_true h1) (of_decide_eq_true h2)
          have hne : ¬ a = c := ne_of_lt hac
          simp only [charsLe, if_neg hne]
          exact decide_eq_true hac

instance listingLE.isTotal : IsTotal String listingLE := by
  constructor
  intro a b
  rcases lt_trichotomy (listingKey a) (listingKey b) with hlt | heq | hgt
  · exact Or.inl (Or.inl hlt)
  · rcases charsLe_total (lowerChars a) (lowerChars b) with h | h
    · exact Or.inl (Or.inr ⟨heq, h⟩)
    · exact Or.inr (Or.inr ⟨heq.symm, h⟩)
  · exact Or.inr (Or.inl hgt)

instance listingLE.isTrans : IsTrans String listingLE := by
  constructor
  intro a b c h1 h2
  rcases h1 with h1 | ⟨h1k, h1c⟩
  · rcases h2 with h2 | ⟨h2k, _⟩
    · exact Or.inl (lt_trans h1 h2)
    · exact Or.inl (h2k ▸ h1)
  · rcases h2 with h2 | ⟨h2k, h2c⟩
    · exact Or.inl (h1k ▸ h2)
    · exact Or.inr ⟨h1k.trans h2k, charsLe_trans _ _ _ h1c h2c⟩

/-- A flatten of nonempty lists is at least as long as the outer list. -/
theorem length_le_length_flatten {α : Type} :
    ∀ L : List (List α), (∀ l ∈ L, l ≠ []) → L.length ≤ L.flatten.length := by
  intro L
  induction L with
  | nil => intro _; simp
  | cons l L ih =>
    intro h
    have hl : l ≠ [] := h l (by simp)
    have hlen : 1 ≤ l.length := List.length_pos.mpr hl
    have := ih (fun x hx => h x (by simp [hx]))
    simp only [List.length_cons, List.flatten_cons, List.length_append]
    omega

/-! Concrete servers instantiating the claims. -/

/-- A server whose every request raises a transport error. -/
def exnServer : Nat → FetchResult Supporter := fun _ => .exn

/-- The two-page response sequence of the pagination test: page 1 is
non-empty with a continuation, page 2 is non-empty with a null
continuation. -/
def twoPageServer : Nat → FetchResult Supporter := fun page =>
  if page = 1 then .ok [⟨some (.strNum 5), some (.strNum 3)⟩] true
  else .ok [⟨some (.strNum 10), some (.strNum 3)⟩] false

/-- The invalid-data page of the tests: three records of which two have a
non-numeric field, and one valid record worth 5 times 4. -/
def invalidDataServer : Nat → FetchResult Supporter := fun _ =>
  .ok [⟨some .strBad, some (.strNum 3)⟩,
       ⟨some (.strNum 2), some .strBad⟩,
       ⟨some (.strNum 5), some (.strNum 4)⟩] false

/-- A single record whose amount is -3/2: the string -1 for the coffee
count and the string 1.5 for the unit price. -/
def negHalfServer : Nat → FetchResult Supporter :=
  fun _ => .ok [⟨some (.strNum (-1)), some (.strNum (3/2))⟩] false

/-- A single record whose amount is -3. -/
def negAmountServer : Nat → FetchResult Supporter :=
  fun _ => .ok [⟨some (.strNum (-1)), some (.strNum 3)⟩] false

/-- A single valid record worth 2 times 3. -/
def posServer : Nat → FetchResult Supporter :=
  fun _ => .ok [⟨some (.num 2), some (.num 3)⟩] false

/-- A server that always yields one record and a continuation, driving the
loop into its safety cap. -/
def constPageServer : Nat → FetchResult Supporter :=
  fun _ => .ok [⟨some (.num 1), some (.num 1)⟩] true

/-- A subscriptions server whose every request raises. -/
def exnSubServer : Nat → FetchResult Subscription := fun _ => .exn

/-- The blank-names page of the subscriptions test: one valid name, an
empty one, a whitespace-only one, and a record without the field. -/
def blankNamesServer : Nat → FetchResult Subscription := fun _ =>
  .ok [⟨some "Valid Name"⟩, ⟨some ""⟩, ⟨some "   "⟩, ⟨none⟩] false

/-! Claim theorems. -/

/-- Claim C1: when the API credential is missing, or the loop reaches a
page whose request raises a transport error or answers with a non-success
status, get_buymeacoffee_stats abandons the in-progress aggregation and
returns exactly total_amount 912, supporter_count 61, currency EUR. -/
theorem stats_failure_returns_fallback (server : Nat → FetchResult Supporter)
    (t : String) (p : Nat) (hp1 : 1 ≤ p) (hp2 : p ≤ 100)
    (hcont : ∀ q, 1 ≤ q → q < p → continuesPage (server q) = true)
    (hfail : isFailure (server p) = true) :
    get_buymeacoffee_stats none server =
      { total_amount := 912, supporter_count := 61, currency := "€" } ∧
    get_buymeacoffee_stats (some t) server =
      { total_amount := 912, supporter_count := 61, currency := "€" } := by
  refine ⟨rfl, ?_⟩
  by_cases ht : token_truthy (some t) = false
  · simp [get_buymeacoffee_stats, ht, fallback_stats]
  · have hstop := isFailure_continuesPage _ hfail
    have hrun := pagesLoop_stop server 99 1 p hp1 (by omega) hcont hstop
    simp [get_buymeacoffee_stats, ht, hrun, hfail, fallback_stats]

theorem stats_failure_returns_fallback_witness :
    get_buymeacoffee_stats none exnServer =
      { total_amount := 912, supporter_count := 61, currency := "€" } ∧
    get_buymeacoffee_stats (some "token-value") exnServer =
      { total_amount := 912, supporter_count := 61, currency := "€" } :=
  stats_failure_returns_fallback exnServer "token-value" 1 (by decide) (by decide)
    (fun q h1 h2 => absurd h2 (Nat.not_lt.mpr h1)) rfl

/-- Claim C2: in a successful run every fetched record counts toward
supporter_count, while only the records whose two numeric conversions
succeed contribute to total_amount; on the three-record page with two
invalid records the result is supporter_count 3 and total_amount 20 from
the single valid record. -/
theorem stats_count_amount_decoupling (server : Nat → FetchResult Supporter)
    (t : String) (all : List Supporter)
    (ht : token_truthy (some t) = true)
    (hrun : (pagesLoop server 99 1).1 = some all) :
    (get_buymeacoffee_stats (some t) server).supporter_count = all.length ∧
    (get_buymeacoffee_stats (some t) server).total_amount =
      pyInt ((all.filterMap supporterAmount).sum) ∧
    get_buymeacoffee_stats (some "t") invalidDataServer =
      { total_amount := 20, supporter_count := 3, currency := "€" } := by
  refine ⟨?_, ?_, ?_⟩
  · simp [get_buymeacoffee_stats, ht, hrun]
  · simp [get_buymeacoffee_stats, ht, hrun, totalAmount_eq_sum]
  · have hrun2 : (pagesLoop invalidDataServer 99 1).1 =
        some [⟨some .strBad, some (.strNum 3)⟩,
              ⟨some (.strNum 2), some .strBad⟩,
              ⟨some (.strNum 5), some (.strNum 4)⟩] := rfl
    simp only [get_buymeacoffee_stats]
    rw [if_neg (by decide), hrun2]
    simp only [totalAmount_eq_sum]
    norm_num [List.filterMap_cons, supporterAmount, toNum, pyInt,
      SupporterStats.mk.injEq]

theorem stats_count_amount_decoupling_witness :
    (get_buymeacoffee_stats (some "t") invalidDataServer).supporter_count =
      ([⟨some .strBad, some (.strNum 3)⟩,
        ⟨some (.strNum 2), some .strBad⟩,
        ⟨some (.strNum 5), some (.strNum 4)⟩] : List Supporter).length ∧
    (get_buymeacoffee_stats (some "t") invalidDataServer).total_amount =
      pyInt ((([⟨some .strBad, some (.strNum 3)⟩,
        ⟨some (.strNum 2), some .strBad⟩,
        ⟨some (.strNum 5), some (.strNum 4)⟩] : List Supporter).filterMap
          supporterAmount).sum) ∧
    get_buymeacoffee_stats (some "t") invalidDataServer =
      { total_amount := 20, supporter_count := 3, currency := "€" } :=
  stats_count_amount_decoupling invalidDataServer "t"
    [⟨some .strBad, some (.strNum 3)⟩,
     ⟨some (.strNum 2), some .strBad⟩,
     ⟨some (.strNum 5), some (.strNum 4)⟩] (by decide) rfl

/-- Claim C3: the stats aggregator requests consecutive pages starting at
page 1 with per_page 50, issues exactly p requests when the pages before p
keep the loop going and page p stops it, never issues more than 100
requests whatever the server does, and issues exactly 2 requests against
the two-page server. -/
theorem stats_pagination_protocol (server : Nat → FetchResult Supporter)
    (t : String) (p : Nat) (ht : token_truthy (some t) = true)
    (hp1 : 1 ≤ p) (hp2 : p ≤ 100)
    (hcont : ∀ q, 1 ≤ q → q < p → continuesPage (server q) = true)
    (hstop : continuesPage (server p) = false) :
    statsRequests (some t) server =
      (List.range' 1 p).map (fun q => (q, page_size)) ∧
    page_size = 50 ∧
    (∀ (tok : Option String) (srv : Nat → FetchResult Supporter),
      (statsRequests tok srv).length ≤ 100) ∧
    statsRequests (some "t") twoPageServer = [(1, 50), (2, 50)] := by
  refine ⟨?_, rfl, ?_, ?_⟩
  · have hrun := pagesLoop_stop server 99 1 p hp1 (by omega) hcont hstop
    have hn : p + 1 - 1 = p := by omega
    rw [hn] at hrun
    simp [statsRequests, ht, hrun]
  · intro tok srv
    by_cases htok : token_truthy tok = false
    · simp [statsRequests, htok]
    · have := pagesLoop_length_le srv 99 1
      simp only [statsRequests, if_neg htok]
      omega
  · rfl

theorem stats_pagination_protocol_witness :
    statsRequests (some "t") twoPageServer =
      (List.range' 1 2).map (fun q => (q, page_size)) ∧
    page_size = 50 ∧
    (∀ (tok : Option String) (srv : Nat → FetchResult Supporter),
      (statsRequests tok srv).length ≤ 100) ∧
    statsRequests (some "t") twoPageServer = [(1, 50), (2, 50)] :=
  stats_pagination_protocol twoPageServer "t" 2 (by decide) (by decide) (by decide)
    (fun q h1 h2 => by
      have hq : q = 1 := by omega
      subst hq
      rfl)
    rfl

/-- Claim C4 counterexample: against negHalfServer the run succeeds with
one record of accumulated sum -3/2; the function returns int() of the sum,
namely -1, while the floor of the accumulated sum is -2, so the returned
total is not the floor of the accumulated sum. -/
theorem stats_floor_counterexample :
    (pagesLoop negHalfServer 99 1).1 =
      some [⟨some (.strNum (-1)), some (.strNum (3/2))⟩] ∧
    (get_buymeacoffee_stats (some "t") negHalfServer).total_amount = -1 ∧
    ⌊(([(⟨some (.strNum (-1)), some (.strNum (3/2))⟩ : Supporter)]).filterMap
        supporterAmount).sum⌋ = (-2 : ℤ) := by
  refine ⟨rfl, ?_, ?_⟩
  · have hrun2 : (pagesLoop negHalfServer 99 1).1 =
        some [⟨some (.strNum (-1)), some (.strNum (3/2))⟩] := rfl
    simp only [get_buymeacoffee_stats]
    rw [if_neg (by decide), hrun2]
    simp only [totalAmount_eq_sum]
    simp [List.filterMap_cons, supporterAmount, toNum, pyInt]
    norm_num [Int.ceil_neg]
  · simp [List.filterMap_cons, supporterAmount, toNum]
    norm_num

/-- Claim C4 amended: for every successful run the returned total_amount
is the truncation toward zero of the accumulated sum of the convertible
records, and this equals the floor of that sum whenever the sum is
nonnegative; for negative non-integral sums the returned value is the
ceiling, not the floor. -/
theorem stats_total_is_truncated_sum (server : Nat → FetchResult Supporter)
    (t : String) (all : List Supporter)
    (ht : token_truthy (some t) = true)
    (hrun : (pagesLoop server 99 1).1 = some all) :
    (get_buymeacoffee_stats (some t) server).total_amount =
      pyInt ((all.filterMap supporterAmount).sum) ∧
    (0 ≤ (all.filterMap supporterAmount).sum →
      (get_buymeacoffee_stats (some t) server).total_amount =
        ⌊(all.filterMap supporterAmount).sum⌋) := by
  have h1 : (get_buymeacoffee_stats (some t) server).total_amount =
      pyInt ((all.filterMap supporterAmount).sum) := by
    simp [get_buymeacoffee_stats, ht, hrun, totalAmount_eq_sum]
  exact ⟨h1, fun hnn => by rw [h1, pyInt, if_pos hnn]⟩

theorem stats_total_is_truncated_sum_witness :
    (get_buymeacoffee_stats (some "t") posServer).total_amount =
      pyInt ((([⟨some (.num 2), some (.num 3)⟩] : List Supporter).filterMap
        supporterAmount).sum) ∧
    (get_buymeacoffee_stats (some "t") posServer).total_amount =
      ⌊(([⟨some (.num 2), some (.num 3)⟩] : List Supporter).filterMap
        supporterAmount).sum⌋ :=
  ⟨(stats_total_is_truncated_sum posServer "t"
      [⟨some (.num 2), some (.num 3)⟩] (by decide) rfl).1,
   (stats_total_is_truncated_sum posServer "t"
      [⟨some (.num 2), some (.num 3)⟩] (by decide) rfl).2
     (by simp [List.filterMap_cons, supporterAmount, toNum])⟩

/-- Claim C5 counterexample: a record with the numeric string -1 as its
coffee count makes the returned total_amount equal to -3, which is
negative, so the nonnegativity invariant does not hold for every input. -/
theorem stats_nonneg_counterexample :
    (get_buymeacoffee_stats (some "t") negAmountServer).total_amount = -3 ∧
    ¬ 0 ≤ (get_buymeacoffee_stats (some "t") negAmountServer).total_amount := by
  have h : (get_buymeacoffee_stats (some "t") negAmountServer).total_amount = -3 := by
    have hrun2 : (pagesLoop negAmountServer 99 1).1 =
        some [⟨some (.strNum (-1)), some (.strNum 3)⟩] := rfl
    simp only [get_buymeacoffee_stats]
    rw [if_neg (by decide), hrun2]
    simp only [totalAmount_eq_sum]
    simp [List.filterMap_cons, supporterAmount, toNum, pyInt]
    norm_num [Int.ceil_neg]
  exact ⟨h, by rw [h]; decide⟩

/-- Claim C5 amended: supporter_count is always nonnegative, and
total_amount is nonnegative provided every record any page carries has a
nonnegative contribution (in particular whenever all numeric field values
are nonnegative); the fallback values 912 and 61 are nonnegative as well.
Unconditionally the claim fails, as the counterexample shows. -/
theorem stats_result_nonneg (api_token : Option String)
    (server : Nat → FetchResult Supporter)
    (h : ∀ q : Nat, ∀ s ∈ pageData server q, 0 ≤ (supporterAmount s).getD 0) :
    0 ≤ (get_buymeacoffee_stats api_token server).total_amount ∧
    0 ≤ (get_buymeacoffee_stats api_token server).supporter_count := by
  refine ⟨?_, Nat.zero_le _⟩
  unfold get_buymeacoffee_stats
  by_cases ht : token_truthy api_token = false
  · rw [if_pos ht]
    decide
  · rw [if_neg ht]
    cases hrun : (pagesLoop server 99 1).1 with
    | none => decide
    | some all =>
      have hsum : 0 ≤ (all.filterMap supporterAmount).sum := by
        apply List.sum_nonneg
        intro a ha
        rcases List.mem_filterMap.mp ha with ⟨s, hs, hsa⟩
        rcases pagesLoop_mem server 99 1 all hrun s hs with ⟨q, hq⟩
        have hnn := h q s hq
        rw [hsa] at hnn
        simpa using hnn
      simp only [totalAmount_eq_sum]
      rw [pyInt, if_pos hsum]
      exact Int.floor_nonneg.mpr hsum

theorem stats_result_nonneg_witness :
    0 ≤ (get_buymeacoffee_stats (some "t") posServer).total_amount ∧
    0 ≤ (get_buymeacoffee_stats (some "t") posServer).supporter_count :=
  stats_result_nonneg (some "t") posServer (by
    intro q s hs
    simp only [pageData, posServer, List.mem_singleton] at hs
    subst hs
    simp [supporterAmount, toNum])

/-- Claim C9: when every page up to 100 is non-empty with a continuation,
the loop stops at the safety cap and the function does not take the
fallback path: it returns the totals computed from the records of the 100
pages actually fetched, and the result differs from the fallback
statistics. -/
theorem stats_cap_not_fallback (server : Nat → FetchResult Supporter)
    (t : String) (ht : token_truthy (some t) = true)
    (hcont : ∀ q, 1 ≤ q → q ≤ 100 → continuesPage (server q) = true) :
    get_buymeacoffee_stats (some t) server =
      { total_amount :=
          pyInt (totalAmount (((List.range' 1 100).map (pageData server)).flatten))
        supporter_count :=
          (((List.range' 1 100).map (pageData server)).flatten).length
        currency := "€" } ∧
    get_buymeacoffee_stats (some t) server ≠ fallback_stats := by
  have hrun := pagesLoop_cap server 99 1 (fun q h1 h2 => hcont q h1 (by omega))
  have hmain : get_buymeacoffee_stats (some t) server =
      { total_amount :=
          pyInt (totalAmount (((List.range' 1 100).map (pageData server)).flatten))
        supporter_count :=
          (((List.range' 1 100).map (pageData server)).flatten).length
        currency := "€" } := by
    simp [get_buymeacoffee_stats, ht, hrun]
  refine ⟨hmain, ?_⟩
  intro hfb
  have hne : ∀ l ∈ (List.range' 1 100).map (pageData server), l ≠ [] := by
    intro l hl
    rcases List.mem_map.mp hl with ⟨q, hq, rfl⟩
    have hq2 := List.mem_range'_1.mp hq
    exact pageData_ne_nil_of_continuesPage server q (hcont q hq2.1 (by omega))
  have hlen := length_le_length_flatten _ hne
  rw [List.length_map, List.length_range'] at hlen
  have hcount := congrArg SupporterStats.supporter_count (hmain.symm.trans hfb)
  simp only [fallback_stats] at hcount
  omega

theorem stats_cap_not_fallback_witness :
    get_buymeacoffee_stats (some "t") constPageServer =
      { total_amount :=
          pyInt (totalAmount
            (((List.range' 1 100).map (pageData constPageServer)).flatten))
        supporter_count :=
          (((List.range' 1 100).map (pageData constPageServer)).flatten).length
        currency := "€" } ∧
    get_buymeacoffee_stats (some "t") constPageServer ≠ fallback_stats :=
  stats_cap_not_fallback constPageServer "t" (by decide)
    (fun q h1 h2 => rfl)

/-- Claim C6: the extracted title is the embedded title when that field is
present and non-empty and the identifier (edition name) otherwise, a
fallback chain of exactly two links; the subject is the embedded subject
when present and the empty string otherwise. -/
theorem pdf_title_subject_fallback (edition_name : String) (m : PdfMetadata) :
    ((m.title = none ∨ m.title = some "") →
      (process_pdf_url edition_name m).title = edition_name) ∧
    (∀ t, m.title = some t → t ≠ "" →
      (process_pdf_url edition_name m).title = t) ∧
    (∀ s, m.subject = some s → (process_pdf_url edition_name m).subject = s) ∧
    (m.subject = none → (process_pdf_url edition_name m).subject = "") := by
  refine ⟨?_, ?_, ?_, ?_⟩
  · rintro (h | h) <;> simp [process_pdf_url, h]
  · intro t h hne
    simp [process_pdf_url, h, hne]
  · intro s h
    simp [process_pdf_url, h]
  · intro h
    simp [process_pdf_url, h]

theorem pdf_title_subject_fallback_witness :
    (process_pdf_url "ukulele-tuesday" ⟨none, none⟩).title = "ukulele-tuesday" ∧
    (process_pdf_url "ukulele-tuesday" ⟨some "Songbook", some "Folk"⟩).title =
      "Songbook" ∧
    (process_pdf_url "ukulele-tuesday" ⟨some "Songbook", some "Folk"⟩).subject =
      "Folk" ∧
    (process_pdf_url "ukulele-tuesday" ⟨none, none⟩).subject = "" :=
  ⟨(pdf_title_subject_fallback "ukulele-tuesday" ⟨none, none⟩).1 (Or.inl rfl),
   (pdf_title_subject_fallback "ukulele-tuesday"
      ⟨some "Songbook", some "Folk"⟩).2.1 "Songbook" rfl (by decide),
   (pdf_title_subject_fallback "ukulele-tuesday"
      ⟨some "Songbook", some "Folk"⟩).2.2.1 "Folk" rfl,
   (pdf_title_subject_fallback "ukulele-tuesday" ⟨none, none⟩).2.2.2 rfl⟩

/-- Claim C7: for every sequence of fetched subscription records, a name
appears in the result exactly when some record carries it as its payer
name and it is not blank, so a record whose payer name is missing, empty,
or whitespace-only is excluded (4 records with 2 blank-ish and 1 missing
give the single valid name); and the aggregator returns an empty sequence
on a missing credential and on a failed request at any page the loop
reaches. -/
theorem subscriptions_filter_and_fallback
    (server : Nat → FetchResult Subscription) (t : String) (p : Nat)
    (srv2 : Nat → FetchResult Subscription) (t2 : String)
    (recs : List Subscription)
    (hp1 : 1 ≤ p) (hp2 : p ≤ 100)
    (hcont : ∀ q, 1 ≤ q → q < p → continuesPage (server q) = true)
    (hfail : isFailure (server p) = true)
    (ht2 : token_truthy (some t2) = true)
    (hrun : (pagesLoop srv2 99 1).1 = some recs) :
    get_buymeacoffee_subscriptions none server = [] ∧
    get_buymeacoffee_subscriptions (some t) server = [] ∧
    (∀ n, n ∈ get_buymeacoffee_subscriptions (some t2) srv2 ↔
      n.data.all Char.isWhitespace = false ∧
      ∃ r ∈ recs, r.payer_name = some n) ∧
    get_buymeacoffee_subscriptions (some "t") blankNamesServer =
      ["Valid Name"] := by
  refine ⟨rfl, ?_, ?_, rfl⟩
  · by_cases ht : token_truthy (some t) = false
    · simp [get_buymeacoffee_subscriptions, ht]
    · have hstop := isFailure_continuesPage _ hfail
      have hrun1 := pagesLoop_stop server 99 1 p hp1 (by omega) hcont hstop
      simp [get_buymeacoffee_subscriptions, ht, hrun1, hfail]
  · intro n
    simp only [get_buymeacoffee_subscriptions]
    rw [if_neg (by simp [ht2]), hrun]
    simp only [List.mem_filterMap]
    constructor
    · rintro ⟨r, hr, hf⟩
      rcases hp' : r.payer_name with _ | m
      · simp [hp'] at hf
      · simp only [hp'] at hf
        cases hb : m.data.all Char.isWhitespace
        · rw [hb] at hf
          simp only [Bool.false_eq_true, if_false] at hf
          have hm := Option.some.inj hf
          subst hm
          exact ⟨hb, r, hr, hp'⟩
        · rw [hb] at hf
          simp at hf
    · rintro ⟨hnb, r, hr, hp'⟩
      exact ⟨r, hr, by simp [hp', hnb]⟩

theorem subscriptions_filter_and_fallback_witness :
    get_buymeacoffee_subscriptions none exnSubServer = [] ∧
    get_buymeacoffee_subscriptions (some "t") exnSubServer = [] ∧
    ("Valid Name" ∈ get_buymeacoffee_subscriptions (some "t") blankNamesServer ↔
      "Valid Name".data.all Char.isWhitespace = false ∧
      ∃ r ∈ ([⟨some "Valid Name"⟩, ⟨some ""⟩, ⟨some "   "⟩, ⟨none⟩] :
        List Subscription), r.payer_name = some "Valid Name") ∧
    get_buymeacoffee_subscriptions (some "t") blankNamesServer =
      ["Valid Name"] :=
  have h := subscriptions_filter_and_fallback exnSubServer "t" 1
    blankNamesServer "t"
    [⟨some "Valid Name"⟩, ⟨some ""⟩, ⟨some "   "⟩, ⟨none⟩]
    (by decide) (by decide)
    (fun q h1 h2 => absurd h2 (Nat.not_lt.mpr h1)) rfl (by decide) rfl
  ⟨h.1, h.2.1, h.2.2.1 "Valid Name", h.2.2.2⟩

/-- Claim C8: the listing-based resolver keeps exactly the names ending in
.pdf case-insensitively, returns them sorted so that names equal to
regular.pdf (case-insensitive) come first and the rest follow in
case-insensitive lexicographic order, and on the three-name example the
output is regular.pdf, a.pdf, b.pdf. -/
theorem listing_resolver_spec (names : List String) :
    (∀ a, a ∈ resolve_from_listing names ↔
      a ∈ names ∧ hasPdfSuffix a = true) ∧
    List.Sorted listingLE (resolve_from_listing names) ∧
    resolve_from_listing ["b.pdf", "regular.pdf", "a.pdf"] =
      ["regular.pdf", "a.pdf", "b.pdf"] := by
  refine ⟨?_, ?_, ?_⟩
  · intro a
    rw [resolve_from_listing,
      List.Perm.mem_iff (List.perm_insertionSort listingLE _)]
    simp [List.mem_filter]
  · exact List.sorted_insertionSort listingLE _
  · decide

/-- Claim C10: a missing coffee-count field defaults to 0 and a missing
unit-price field defaults to 3, the record then contributing count times
price with those defaults; a record is excluded from the monetary total
exactly when one of its fields is present with a value the numeric
conversion rejects, never merely for a field being absent. -/
theorem supporter_default_fields :
    supporterAmount ⟨none, none⟩ = some 0 ∧
    (∀ c qc, toNum c = some qc →
      supporterAmount ⟨some c, none⟩ = some (qc * 3)) ∧
    (∀ pv qp, toNum pv = some qp →
      supporterAmount ⟨none, some pv⟩ = some (0 * qp)) ∧
    (∀ s : Supporter, supporterAmount s = none ↔
      ((∃ v, s.support_coffees = some v ∧ toNum v = none) ∨
       (∃ v, s.support_coffee_price = some v ∧ toNum v = none))) ∧
    (∀ (rest : List Supporter) c qc, toNum c = some qc →
      totalAmount (⟨some c, none⟩ :: rest) = qc * 3 + totalAmount rest) := by
  refine ⟨?_, ?_, ?_, ?_, ?_⟩
  · simp [supporterAmount, toNum]
  · intro c qc h
    cases c <;> simp [toNum] at h <;> subst h <;> rfl
  · intro pv qp h
    cases pv <;> simp [toNum] at h <;> subst h <;> rfl
  · rintro ⟨cf, pf⟩
    rcases cf with _ | v <;> rcases pf with _ | w
    · simp [supporterAmount, toNum]
    · cases w <;> simp [supporterAmount, toNum]
    · cases v <;> simp [supporterAmount, toNum]
    · cases v <;> cases w <;> simp [supporterAmount, toNum]
  · intro rest c qc h
    rw [totalAmount_eq_sum, totalAmount_eq_sum]
    cases c <;> simp [toNum] at h <;> subst h <;>
      simp [List.filterMap_cons, supporterAmount, toNum]

theorem supporter_default_fields_witness :
    supporterAmount ⟨some (.strNum 2), none⟩ = some (2 * 3) ∧
    supporterAmount ⟨none, some (.num 5)⟩ = some (0 * 5) ∧
    totalAmount [⟨some (.strNum 2), none⟩] = 2 * 3 + totalAmount [] :=
  ⟨supporter_default_fields.2.1 (.strNum 2) 2 rfl,
   supporter_default_fields.2.2.1 (.num 5) 5 rfl,
   supporter_default_fields.2.2.2.2 [] (.strNum 2) 2 rfl⟩

end Songbooks
